import Mathlib

/-!
Verification of the recipe resolution pipeline of the food-eat repository.

The embedding below follows src/src/mastra/tools/recipe-tool.ts.  Provider
responses are modelled by an environment of response functions: each outbound
fetch either raises a transport error (modelled as Except.error, covering a
rejected fetch or a body that fails JSON parsing) or yields a parsed payload
whose meals field is either an array or something that is not an array
(MealsField.nonArray, covering the null that TheMealDB returns on no matches
as well as any malformed shape).  JavaScript string trimming and splitting on
a comma are modelled by structural functions over the character list of a
string, mirroring String.prototype.trim and String.prototype.split.
-/

set_option autoImplicit false

namespace FoodEat

-- JS String.prototype.trim over the character list (leading and trailing
-- whitespace removed, interior whitespace kept).
def jsTrim (s : String) : String :=
  String.mk (((s.data.dropWhile Char.isWhitespace).reverse.dropWhile
    Char.isWhitespace).reverse)

-- JS String.prototype.split with separator comma: keeps empty segments and
-- always yields at least one segment.
def splitCommaAux : List Char → List Char → List (List Char)
  | [], acc => [acc.reverse]
  | c :: cs, acc =>
    if c = ',' then acc.reverse :: splitCommaAux cs []
    else splitCommaAux cs (c :: acc)

def jsSplitComma (s : String) : List String :=
  (splitCommaAux s.data []).map String.mk

-- interface MealSummary (recipe-tool.ts lines 16-20)
structure MealSummary where
  idMeal : String
  strMeal : String
  strMealThumb : String
deriving DecidableEq

-- interface MealDetail (recipe-tool.ts lines 23-30).  The dynamic fields
-- strIngredient1..strIngredient20 and strMeasure1..strMeasure20 are modelled
-- by the slots list: entry k holds the values of slot k+1, and an absent
-- field is the empty string, matching the coercion (meal[f] or empty).
structure MealDetail where
  idMeal : String
  strMeal : String
  strMealThumb : String
  strCategory : Option String
  strArea : Option String
  strTags : Option String
  strInstructions : Option String
  strYoutube : Option String
  slots : List (String × String)
deriving DecidableEq

structure IngredientItem where
  ingredient : String
  measure : String
deriving DecidableEq

structure NormalizedRecipe where
  id : String
  name : String
  category : Option String
  area : Option String
  tags : Option (List String)
  instructions : Option String
  thumbnail : Option String
  youtube : Option String
  ingredients : List IngredientItem
deriving DecidableEq

structure RecipeResult where
  recipes : List NormalizedRecipe
  source : String
deriving DecidableEq

-- The meals field of a parsed provider payload: either an array or any
-- non-array value (null, missing, object, ...).
inductive MealsField (α : Type) where
  | arr (xs : List α)
  | nonArray
deriving DecidableEq

-- Outcome of one outbound fetch plus resp.json(): a transport error or a
-- parsed payload.
abbrev FetchResult (α : Type) := Except Unit (MealsField α)

-- The remote provider, as response functions.  random is indexed by the
-- number of the call inside one randomSelection run.
structure Env where
  filterI : String → FetchResult MealSummary
  filterC : String → FetchResult MealSummary
  filterA : String → FetchResult MealSummary
  search : String → FetchResult MealDetail
  lookup : String → FetchResult MealDetail
  random : Nat → FetchResult MealDetail

-- function extractIngredients (recipe-tool.ts lines 33-44): iterate slots
-- 1..20, trim name and measure, keep a slot when the trimmed name is
-- non-empty.
def extractIngredients (meal : MealDetail) : List IngredientItem :=
  (List.range 20).filterMap (fun i =>
    if jsTrim (meal.slots.getD i ("", "")).1 = "" then none
    else some ⟨jsTrim (meal.slots.getD i ("", "")).1,
               jsTrim (meal.slots.getD i ("", "")).2⟩)

-- JS truthiness coercion (x or null) on an optional string field: a missing
-- field and the empty string both become null.
def orNull : Option String → Option String
  | none => none
  | some v => if v = "" then none else some v

-- tags: strTags is split on commas, segments trimmed, empty segments
-- dropped; a missing or empty strTags gives null (recipe-tool.ts line 291).
def normTags : Option String → Option (List String)
  | none => none
  | some v =>
    if v = "" then none
    else some (((jsSplitComma v).map jsTrim).filter (fun t => t ≠ ""))

-- The mapping applied to every MealDetail before it is returned; this block
-- is written out verbatim at each return site of execute
-- (recipe-tool.ts lines 286-296 and the parallel copies).
def normalizeMeal (meal : MealDetail) : NormalizedRecipe where
  id := meal.idMeal
  name := meal.strMeal
  category := orNull meal.strCategory
  area := orNull meal.strArea
  tags := normTags meal.strTags
  instructions := orNull meal.strInstructions
  thumbnail := if meal.strMealThumb = "" then none else some meal.strMealThumb
  youtube := orNull meal.strYoutube
  ingredients := extractIngredients meal

-- function filterByIngredient (recipe-tool.ts lines 59-64): a transport
-- error propagates; a payload whose meals is not an array yields [].
def filterByIngredient (env : Env) (ingredient : String) :
    Except Unit (List MealSummary) :=
  match env.filterI ingredient with
  | .error e => .error e
  | .ok (.arr xs) => .ok xs
  | .ok .nonArray => .ok []

-- function filterByCategory (recipe-tool.ts lines 67-71)
def filterByCategory (env : Env) (category : String) :
    Except Unit (List MealSummary) :=
  match env.filterC category with
  | .error e => .error e
  | .ok (.arr xs) => .ok xs
  | .ok .nonArray => .ok []

-- function filterByArea (recipe-tool.ts lines 74-78)
def filterByArea (env : Env) (area : String) :
    Except Unit (List MealSummary) :=
  match env.filterA area with
  | .error e => .error e
  | .ok (.arr xs) => .ok xs
  | .ok .nonArray => .ok []

-- function searchByName (recipe-tool.ts lines 106-112)
def searchByName (env : Env) (query : String) :
    Except Unit (List MealDetail) :=
  match env.search query with
  | .error e => .error e
  | .ok (.arr xs) => .ok xs
  | .ok .nonArray => .ok []

-- One iteration of the loop in fetchDetailsFor (recipe-tool.ts lines 50-53):
-- meals[0] of the lookup payload, or null when absent.
def lookupMeal (env : Env) (id : String) : Except Unit (Option MealDetail) :=
  match env.lookup id with
  | .error e => .error e
  | .ok (.arr xs) => .ok xs.head?
  | .ok .nonArray => .ok none

-- function fetchDetailsFor (recipe-tool.ts lines 47-56): sequential lookups,
-- null results skipped, a transport error aborts the whole batch.
def fetchDetailsFor (env : Env) : List String → Except Unit (List MealDetail)
  | [] => .ok []
  | id :: rest =>
    match lookupMeal env id with
    | .error e => .error e
    | .ok m =>
      match fetchDetailsFor env rest with
      | .error e => .error e
      | .ok ds =>
        match m with
        | some meal => .ok (meal :: ds)
        | none => .ok ds

-- One iteration of the while loop in randomSelection (recipe-tool.ts lines
-- 86-101): a single random.php call whose error is swallowed; a meal with a
-- truthy id that is not already present is appended.
def randomStep (env : Env) (t : Nat) (results : List MealDetail) :
    List MealDetail :=
  match env.random t with
  | .error _ => results
  | .ok .nonArray => results
  | .ok (.arr xs) =>
    match xs.head? with
    | none => results
    | some meal =>
      if meal.idMeal != "" && results.all (fun m => m.idMeal != meal.idMeal)
      then results ++ [meal]
      else results

-- The while loop of randomSelection, with fuel = maxTries - tries.  The
-- second component counts the iterations actually executed, that is the
-- number of random.php calls issued.
def randomLoopAux (env : Env) : Nat → Nat → List MealDetail →
    List MealDetail × Nat
  | _, 0, results => (results, 0)
  | tries, fuel + 1, results =>
    if results.length < 10 then
      ((randomLoopAux env (tries + 1) fuel (randomStep env tries results)).1,
       (randomLoopAux env (tries + 1) fuel (randomStep env tries results)).2
         + 1)
    else (results, 0)

-- function randomSelection (recipe-tool.ts lines 81-103): maxCount 10,
-- maxTries 20, starting from an empty result list.
def randomSelection (env : Env) : List MealDetail :=
  (randomLoopAux env 0 20 []).1

-- Number of random.php calls issued by one randomSelection run.
def randomSelectionTries (env : Env) : Nat :=
  (randomLoopAux env 0 20 []).2

-- The context fields of the tool input that execute reads; limit none
-- models an absent limit (defaulted to 5 at the use sites).
structure Ctx where
  ingredients : Option String
  category : Option String
  cuisine : Option String
  limit : Option Nat
deriving DecidableEq

-- The branch guards of execute: (field && field.trim()) is truthy exactly
-- when the field is present and has a non-whitespace character.
def isGiven : Option String → Bool
  | none => false
  | some v => jsTrim v != ""

-- ingredients.split(characterComma)[0].trim() (recipe-tool.ts line 163)
def firstIngredient (v : String) : String :=
  jsTrim ((jsSplitComma v).headD "")

-- randoms.slice(0, limit).map(normalize) with source TheMealDB, the random
-- recommendation result built at recipe-tool.ts lines 184-196, 218-230,
-- 252-264, 268-280 and 301-313.
def randomResult (env : Env) (lim : Nat) : RecipeResult where
  recipes := ((randomSelection env).take lim).map normalizeMeal
  source := "TheMealDB"

-- The shared empty-filter fallback written inside each filter branch: try
-- searchByName, return its first limit entries when non-empty, otherwise
-- return the random recommendation (recipe-tool.ts lines 166-196).
def searchFallback (env : Env) (term : String) (lim : Nat) :
    Except Unit RecipeResult :=
  match searchByName env term with
  | .error e => .error e
  | .ok byName =>
    if byName.isEmpty then .ok (randomResult env lim)
    else .ok { recipes := (byName.take lim).map normalizeMeal,
               source := "TheMealDB" }

-- One filter branch of execute: on an empty summary list fall back, else
-- take the first limit ids, fetch their details and normalize
-- (recipe-tool.ts lines 161-197 and 283-298).
def filterBranch (env : Env) (summariesE : Except Unit (List MealSummary))
    (term : String) (lim : Nat) : Except Unit RecipeResult :=
  match summariesE with
  | .error e => .error e
  | .ok summaries =>
    if summaries.isEmpty then searchFallback env term lim
    else
      match fetchDetailsFor env
          ((summaries.take lim).map MealSummary.idMeal) with
      | .error e => .error e
      | .ok details =>
        .ok { recipes := details.map normalizeMeal, source := "TheMealDB" }

-- The body of the try block of execute (recipe-tool.ts lines 160-298).
def tryBody (env : Env) (ctx : Ctx) (lim : Nat) : Except Unit RecipeResult :=
  if isGiven ctx.ingredients then
    filterBranch env
      (filterByIngredient env (firstIngredient (ctx.ingredients.getD "")))
      (firstIngredient (ctx.ingredients.getD "")) lim
  else if isGiven ctx.category then
    filterBranch env (filterByCategory env (jsTrim (ctx.category.getD "")))
      (jsTrim (ctx.category.getD "")) lim
  else if isGiven ctx.cuisine then
    filterBranch env (filterByArea env (jsTrim (ctx.cuisine.getD "")))
      (jsTrim (ctx.cuisine.getD "")) lim
  else
    .ok (randomResult env lim)

-- execute (recipe-tool.ts lines 149-315): the whole try body is wrapped in
-- a catch that degrades to the random recommendation.
def execute (env : Env) (ctx : Ctx) : Except Unit RecipeResult :=
  match tryBody env ctx (ctx.limit.getD 5) with
  | .ok r => .ok r
  | .error _ => .ok (randomResult env (ctx.limit.getD 5))

-- Keeps only the field that governs the search according to the priority
-- order ingredient, category, cuisine, none.
def priorityNormalize (ctx : Ctx) : Ctx :=
  if isGiven ctx.ingredients then
    { ctx with category := none, cuisine := none }
  else if isGiven ctx.category then
    { ctx with ingredients := none, cuisine := none }
  else if isGiven ctx.cuisine then
    { ctx with ingredients := none, category := none }
  else
    { ctx with ingredients := none, category := none, cuisine := none }

-- The filter call selected by the priority order together with the term it
-- receives, none when no field is given.
def activeFilter (env : Env) (ctx : Ctx) :
    Option (Except Unit (List MealSummary) × String) :=
  if isGiven ctx.ingredients then
    some (filterByIngredient env
      (firstIngredient (ctx.ingredients.getD "")),
      firstIngredient (ctx.ingredients.getD ""))
  else if isGiven ctx.category then
    some (filterByCategory env (jsTrim (ctx.category.getD "")),
      jsTrim (ctx.category.getD ""))
  else if isGiven ctx.cuisine then
    some (filterByArea env (jsTrim (ctx.cuisine.getD "")),
      jsTrim (ctx.cuisine.getD ""))
  else none

-- Spec-side model of one dedup-insert of a batch of summaries into the
-- candidate collection, insertion order preserved (spec section 4.4, state
-- SEARCH).
def specInsertAll (acc : List MealSummary) (rs : List MealSummary) :
    List MealSummary :=
  rs.foldl (fun a r =>
    if a.any (fun x => x.idMeal == r.idMeal) then a else a ++ [r]) acc

-- Spec-side model of the SEARCH keyword loop of spec section 4.4: one
-- provider filter call per keyword, id-deduplicated merge, early exit once
-- the candidate count reaches the limit.  This follows the words of the
-- spec, to be compared with the behaviour of execute.
def specSearchCandidates (filterBy : String → List MealSummary) (lim : Nat) :
    List String → List MealSummary → List MealSummary
  | [], acc => acc
  | k :: ks, acc =>
    if lim ≤ (specInsertAll acc (filterBy k)).length then
      specInsertAll acc (filterBy k)
    else specSearchCandidates filterBy lim ks (specInsertAll acc (filterBy k))

/-! Concrete data used by witnesses and counterexamples. -/

def s1 : MealSummary := ⟨"1", "Beef Stew", "thumb1"⟩

def d1 : MealDetail :=
  ⟨"1", "Beef Stew", "thumb1", some "Beef", some "British",
   some "Meat,Stew", some "Cook it.", some "yt1", []⟩

def dW : MealDetail :=
  ⟨"7", "Random Dish", "thumbW", none, none, none, none, none, []⟩

-- The raw detail of the C5 example: slot 3 holds Salt with measure 1 tsp,
-- slot 7 is empty, slot 12 holds Pepper with an empty measure.
def mealC5 : MealDetail :=
  ⟨"5", "Example", "thumb5", none, none, none, none, none,
   [("", ""), ("", ""), ("Salt", "1 tsp"), ("", ""), ("", ""), ("", ""),
    ("", ""), ("", ""), ("", ""), ("", ""), ("", ""), ("Pepper", ""),
    ("", ""), ("", ""), ("", ""), ("", ""), ("", ""), ("", ""), ("", ""),
    ("", "")]⟩

-- A raw detail with every optional field absent and an empty thumbnail.
def mealN : MealDetail := ⟨"9", "Plain", "", none, none, none, none, none, []⟩

-- A raw detail carrying the C6 example tags string.
def mealT : MealDetail :=
  ⟨"8", "Tagged", "thumb8", none, none, some "a, b,,c", none, none, []⟩

-- Every endpoint raises a transport error.
def envAllErr : Env :=
  ⟨fun _ => .error (), fun _ => .error (), fun _ => .error (),
   fun _ => .error (), fun _ => .error (), fun _ => .error ()⟩

-- Every filter and search raises; random.php succeeds with dW each time.
def envW1 : Env :=
  ⟨fun _ => .error (), fun _ => .error (), fun _ => .error (),
   fun _ => .error (), fun _ => .error (), fun _ => .ok (.arr [dW])⟩

-- The filter returns the same summary twice; lookup resolves it.
def envC4 : Env :=
  ⟨fun _ => .ok (.arr [s1, s1]), fun _ => .error (), fun _ => .error (),
   fun _ => .error (), fun _ => .ok (.arr [d1]), fun _ => .error ()⟩

-- The filter finds a summary but every lookup yields an empty meals array,
-- while search and random would both return meals.
def envW10 : Env :=
  ⟨fun _ => .ok (.arr [s1]), fun _ => .error (), fun _ => .error (),
   fun _ => .ok (.arr [d1]), fun _ => .ok (.arr []), fun _ => .ok (.arr [dW])⟩

-- Every endpoint answers with a payload whose meals field is not an array.
def envMal : Env :=
  ⟨fun _ => .ok .nonArray, fun _ => .ok .nonArray, fun _ => .ok .nonArray,
   fun _ => .ok .nonArray, fun _ => .ok .nonArray, fun _ => .ok .nonArray⟩

def ctxW1 : Ctx := ⟨some "beef", none, none, some 3⟩

def ctxW2 : Ctx := ⟨none, none, none, some 2⟩

def ctxC4 : Ctx := ⟨some "beef", none, none, some 2⟩

def ctxW10 : Ctx := ⟨some "beef", none, none, some 5⟩

/-! Helper lemmas. -/

@[simp]
theorem isGiven_none : isGiven none = false := rfl

theorem dropWhile_head?_false {α : Type} (p : α → Bool) :
    ∀ (l : List α) (a : α), (l.dropWhile p).head? = some a → p a = false := by
  intro l
  induction l with
  | nil => intro a h; simp [List.dropWhile] at h
  | cons c cs ih =>
    intro a h
    by_cases hc : p c = true
    · rw [List.dropWhile_cons_of_pos hc] at h
      exact ih a h
    · rw [List.dropWhile_cons_of_neg hc] at h
      simp only [List.head?_cons, Option.some.injEq] at h
      subst h
      simpa using hc

theorem jsTrim_ne_empty_has_nonws (s : String) (h : jsTrim s ≠ "") :
    ∃ c ∈ (jsTrim s).data, c.isWhitespace = false := by
  unfold jsTrim at h ⊢
  set m := (s.data.dropWhile Char.isWhitespace).reverse with hm
  cases hd : m.dropWhile Char.isWhitespace with
  | nil =>
    rw [hd] at h
    simp at h
  | cons c cs =>
    refine ⟨c, ?_, ?_⟩
    · simp
    · exact dropWhile_head?_false Char.isWhitespace m c (by rw [hd]; rfl)

theorem randomStep_length (env : Env) (t : Nat) (rs : List MealDetail) :
    (randomStep env t rs).length ≤ rs.length + 1 := by
  unfold randomStep
  split
  · exact Nat.le_succ _
  · exact Nat.le_succ _
  · split
    · exact Nat.le_succ _
    · split
      · simp
      · exact Nat.le_succ _

theorem randomStep_pairwise (env : Env) (t : Nat) (rs : List MealDetail)
    (h : rs.Pairwise (fun a b => a.idMeal ≠ b.idMeal)) :
    (randomStep env t rs).Pairwise (fun a b => a.idMeal ≠ b.idMeal) := by
  unfold randomStep
  split
  · exact h
  · exact h
  · split
    · exact h
    · split
      · rename_i meal hcond
        rw [List.pairwise_append]
        refine ⟨h, by simp, ?_⟩
        intro a ha b hb
        simp only [List.mem_singleton] at hb
        subst hb
        rw [Bool.and_eq_true] at hcond
        have h3 := List.all_eq_true.mp hcond.2 a ha
        exact bne_iff_ne.mp h3
      · exact h

theorem randomLoopAux_snd_le (env : Env) :
    ∀ (fuel tries : Nat) (rs : List MealDetail),
      (randomLoopAux env tries fuel rs).2 ≤ fuel := by
  intro fuel
  induction fuel with
  | zero => intro tries rs; simp [randomLoopAux]
  | succ n ih =>
    intro tries rs
    simp only [randomLoopAux]
    split
    · exact Nat.succ_le_succ (ih _ _)
    · simp

theorem randomLoopAux_fst_length (env : Env) :
    ∀ (fuel tries : Nat) (rs : List MealDetail), rs.length ≤ 10 →
      ((randomLoopAux env tries fuel rs).1).length ≤ 10 := by
  intro fuel
  induction fuel with
  | zero => intro tries rs h; simpa [randomLoopAux] using h
  | succ n ih =>
    intro tries rs h
    simp only [randomLoopAux]
    split
    · rename_i hlt
      refine ih _ _ ?_
      have := randomStep_length env tries rs
      omega
    · simpa using h

theorem randomLoopAux_fst_pairwise (env : Env) :
    ∀ (fuel tries : Nat) (rs : List MealDetail),
      rs.Pairwise (fun a b => a.idMeal ≠ b.idMeal) →
      ((randomLoopAux env tries fuel rs).1).Pairwise
        (fun a b => a.idMeal ≠ b.idMeal) := by
  intro fuel
  induction fuel with
  | zero => intro tries rs h; simpa [randomLoopAux] using h
  | succ n ih =>
    intro tries rs h
    simp only [randomLoopAux]
    split
    · exact ih _ _ (randomStep_pairwise env tries rs h)
    · simpa using h

theorem randomLoopAux_allErr (env : Env)
    (hr : ∀ t, env.random t = .error ()) :
    ∀ (fuel tries : Nat) (rs : List MealDetail),
      (randomLoopAux env tries fuel rs).1 = rs := by
  intro fuel
  induction fuel with
  | zero => intro tries rs; simp [randomLoopAux]
  | succ n ih =>
    intro tries rs
    have hstep : randomStep env tries rs = rs := by
      unfold randomStep
      rw [hr tries]
    simp only [randomLoopAux]
    split
    · rw [hstep, ih]
    · simp

theorem fetchDetailsFor_ok_length (env : Env) :
    ∀ (ids : List String) (ds : List MealDetail),
      fetchDetailsFor env ids = .ok ds → ds.length ≤ ids.length := by
  intro ids
  induction ids with
  | nil =>
    intro ds h
    simp only [fetchDetailsFor, Except.ok.injEq] at h
    subst h
    simp
  | cons id rest ih =>
    intro ds h
    simp only [fetchDetailsFor] at h
    cases hl : lookupMeal env id with
    | error e => rw [hl] at h; simp at h
    | ok m =>
      rw [hl] at h
      cases hr : fetchDetailsFor env rest with
      | error e => rw [hr] at h; simp at h
      | ok ds2 =>
        rw [hr] at h
        cases m with
        | some meal =>
          simp only [Except.ok.injEq] at h
          subst h
          have := ih ds2 hr
          simp only [List.length_cons]
          omega
        | none =>
          simp only [Except.ok.injEq] at h
          subst h
          have := ih ds2 hr
          simp only [List.length_cons]
          omega

theorem fetchDetailsFor_all_none (env : Env) :
    ∀ (ids : List String),
      (∀ id ∈ ids, lookupMeal env id = .ok none) →
      fetchDetailsFor env ids = .ok [] := by
  intro ids
  induction ids with
  | nil => intro _; simp [fetchDetailsFor]
  | cons id rest ih =>
    intro h
    have h1 : lookupMeal env id = .ok none := h id (by simp)
    have h2 := ih (fun i hi => h i (by simp [hi]))
    simp [fetchDetailsFor, h1, h2]

theorem randomResult_length (env : Env) (lim : Nat) :
    (randomResult env lim).recipes.length ≤ lim := by
  simp only [randomResult, List.length_map, List.length_take]
  omega

theorem searchFallback_ok_length (env : Env) (term : String) (lim : Nat)
    (r : RecipeResult) (h : searchFallback env term lim = .ok r) :
    r.recipes.length ≤ lim := by
  unfold searchFallback at h
  split at h
  · simp at h
  · split at h
    · simp only [Except.ok.injEq] at h
      subst h
      exact randomResult_length env lim
    · simp only [Except.ok.injEq] at h
      subst h
      simp only [List.length_map, List.length_take]
      omega

theorem filterBranch_ok_length (env : Env)
    (summariesE : Except Unit (List MealSummary)) (term : String)
    (lim : Nat) (r : RecipeResult)
    (h : filterBranch env summariesE term lim = .ok r) :
    r.recipes.length ≤ lim := by
  unfold filterBranch at h
  split at h
  · simp at h
  · split at h
    · exact searchFallback_ok_length env term lim r h
    · split at h
      · simp at h
      · rename_i summaries _ details hfd
        simp only [Except.ok.injEq] at h
        subst h
        have h1 := fetchDetailsFor_ok_length env _ _ hfd
        simp only [List.length_map, List.length_take] at h1 ⊢
        omega

theorem tryBody_ok_length (env : Env) (ctx : Ctx) (lim : Nat)
    (r : RecipeResult) (h : tryBody env ctx lim = .ok r) :
    r.recipes.length ≤ lim := by
  unfold tryBody at h
  split at h
  · exact filterBranch_ok_length env _ _ lim r h
  · split at h
    · exact filterBranch_ok_length env _ _ lim r h
    · split at h
      · exact filterBranch_ok_length env _ _ lim r h
      · simp only [Except.ok.injEq] at h
        subst h
        exact randomResult_length env lim

theorem execute_ok_length (env : Env) (ctx : Ctx) (r : RecipeResult)
    (h : execute env ctx = .ok r) :
    r.recipes.length ≤ ctx.limit.getD 5 := by
  unfold execute at h
  split at h
  · rename_i r2 ht
    simp only [Except.ok.injEq] at h
    subst h
    exact tryBody_ok_length env ctx _ r2 ht
  · simp only [Except.ok.injEq] at h
    subst h
    exact randomResult_length env _

/-! Claim theorems. -/

/-- C1: whenever a stage of the try body of execute throws (for example the
filterByIngredient call raises a transport error, or the filter yields no
summaries and the subsequent searchByName call raises, so that several stages
fail in sequence), execute swallows the exception and returns the
random-recommendation result with source TheMealDB instead of propagating
the error. -/
theorem C1_degrade_on_throw (env : Env) (ctx : Ctx) :
    (∀ e : Unit, tryBody env ctx (ctx.limit.getD 5) = .error e →
      execute env ctx = .ok (randomResult env (ctx.limit.getD 5))) ∧
    (isGiven ctx.ingredients = true →
      filterByIngredient env (firstIngredient (ctx.ingredients.getD ""))
        = .error () →
      execute env ctx = .ok (randomResult env (ctx.limit.getD 5))) ∧
    (isGiven ctx.ingredients = true →
      filterByIngredient env (firstIngredient (ctx.ingredients.getD ""))
        = .ok [] →
      searchByName env (firstIngredient (ctx.ingredients.getD ""))
        = .error () →
      execute env ctx = .ok (randomResult env (ctx.limit.getD 5))) := by
  have base : ∀ e : Unit, tryBody env ctx (ctx.limit.getD 5) = .error e →
      execute env ctx = .ok (randomResult env (ctx.limit.getD 5)) := by
    intro e h
    unfold execute
    rw [h]
  refine ⟨base, ?_, ?_⟩
  · intro hing hfil
    refine base () ?_
    unfold tryBody
    rw [if_pos hing, hfil]
    rfl
  · intro hing hfil hsearch
    refine base () ?_
    unfold tryBody
    rw [if_pos hing, hfil]
    unfold filterBranch
    simp only [List.isEmpty_nil, if_true]
    unfold searchFallback
    rw [hsearch]

/-- Witness for C1 at a concrete environment in which every filter and
search endpoint raises while random.php succeeds. -/
theorem C1_degrade_on_throw_witness :
    execute envW1 ctxW1 = .ok (randomResult envW1 3) :=
  (C1_degrade_on_throw envW1 ctxW1).2.1 rfl rfl

/-- C2: for every valid limit in the range one to ten, every combination of
ingredient, category and cuisine inputs and every provider behaviour, the
recipes list returned by execute has length at most limit. -/
theorem C2_bounded_output (env : Env) (ctx : Ctx) (l : Nat)
    (r : RecipeResult) (hl : ctx.limit = some l) (h1 : 1 ≤ l)
    (h10 : l ≤ 10) (hex : execute env ctx = .ok r) :
    r.recipes.length ≤ l := by
  have h := execute_ok_length env ctx r hex
  rw [hl] at h
  simpa using h

def rW2 : RecipeResult := ⟨[normalizeMeal dW], "TheMealDB"⟩

/-- Witness for C2 at a concrete run with limit two that returns one
recipe. -/
theorem C2_bounded_output_witness : rW2.recipes.length ≤ 2 :=
  C2_bounded_output envW1 ctxW2 2 rW2 rfl (by decide) (by decide) rfl

/-- C3: only the first non-empty field in the priority order ingredient,
category, cuisine governs the query: execute behaves exactly as if every
lower-priority field were absent, so when both ingredient and category are
non-empty the ingredient path is followed and category and cuisine are
ignored. -/
theorem C3_priority_order (env : Env) (ctx : Ctx) :
    execute env ctx = execute env (priorityNormalize ctx) := by
  obtain ⟨ing, cat, cui, lim⟩ := ctx
  by_cases h1 : isGiven ing = true
  · simp [execute, tryBody, priorityNormalize, h1]
  · by_cases h2 : isGiven cat = true
    · simp [execute, tryBody, priorityNormalize, h1, h2]
    · by_cases h3 : isGiven cui = true
      · simp [execute, tryBody, priorityNormalize, h1, h2, h3]
      · simp [execute, tryBody, priorityNormalize, h1, h2, h3]

/-- C4 counterexample: with a provider whose filter endpoint returns the
same summary twice and a limit of two, execute returns the same recipe
twice, while the keyword loop described by the claim, even with identity
expansion, would id-deduplicate the candidates down to a single one.  The
SEARCH stage therefore performs no id-deduplicated keyword merge. -/
theorem C4_no_dedup_counterexample :
    execute envC4 ctxC4 =
      .ok { recipes := [normalizeMeal d1, normalizeMeal d1],
            source := "TheMealDB" } ∧
    specSearchCandidates (fun _ => [s1, s1]) 2 ["beef"] [] = [s1] :=
  ⟨rfl, rfl⟩

/-- C4 amended: the SEARCH stage performs no keyword expansion and no
deduplication: it issues exactly one provider filter call with the first
comma-separated ingredient, truncates the raw summary list to limit without
removing duplicate ids, and fetches detail for each surviving id; the
result is fully determined by that single call. -/
theorem C4_single_filter_no_dedup (env : Env) (ctx : Ctx)
    (l : List MealSummary) (ds : List MealDetail)
    (hing : isGiven ctx.ingredients = true)
    (hfil : filterByIngredient env
      (firstIngredient (ctx.ingredients.getD "")) = .ok l)
    (hne : l ≠ [])
    (hdet : fetchDetailsFor env
      ((l.take (ctx.limit.getD 5)).map MealSummary.idMeal) = .ok ds) :
    execute env ctx =
      .ok { recipes := ds.map normalizeMeal, source := "TheMealDB" } := by
  have hne2 : l.isEmpty = false := by
    cases l with
    | nil => exact absurd rfl hne
    | cons a as => rfl
  have ht : tryBody env ctx (ctx.limit.getD 5) =
      .ok { recipes := ds.map normalizeMeal, source := "TheMealDB" } := by
    unfold tryBody
    rw [if_pos hing, hfil]
    unfold filterBranch
    simp only [hne2, Bool.false_eq_true, if_false]
    rw [hdet]
  unfold execute
  rw [ht]

/-- Witness for the amended C4 at the duplicate-summary environment. -/
theorem C4_single_filter_no_dedup_witness :
    execute envC4 ctxC4 =
      .ok { recipes := [d1, d1].map normalizeMeal, source := "TheMealDB" } :=
  C4_single_filter_no_dedup envC4 ctxC4 [s1, s1] [d1, d1] rfl rfl
    (by decide) rfl

/-- C5: extractIngredients walks slots one to twenty in increasing order,
trims each name and measure and keeps a slot exactly when the trimmed name
is non-empty; on the example detail with slot three Salt with measure one
tsp, slot seven empty and slot twelve Pepper with empty measure it returns
exactly those two items in slot order, and every returned ingredient is
non-empty and contains a non-whitespace character. -/
theorem C5_extract_ingredients :
    extractIngredients mealC5 =
      [⟨"Salt", "1 tsp"⟩, ⟨"Pepper", ""⟩] ∧
    ∀ (meal : MealDetail) (it : IngredientItem),
      it ∈ extractIngredients meal →
      it.ingredient ≠ "" ∧
      ∃ c ∈ it.ingredient.data, c.isWhitespace = false := by
  refine ⟨rfl, ?_⟩
  intro meal it hmem
  unfold extractIngredients at hmem
  rw [List.mem_filterMap] at hmem
  obtain ⟨i, _, hf⟩ := hmem
  by_cases hz : jsTrim (meal.slots.getD i ("", "")).1 = ""
  · rw [if_pos hz] at hf
    simp at hf
  · rw [if_neg hz] at hf
    simp only [Option.some.injEq] at hf
    subst hf
    exact ⟨hz, jsTrim_ne_empty_has_nonws _ hz⟩

/-- Witness for C5 at the example detail and its first extracted item. -/
theorem C5_extract_ingredients_witness :
    extractIngredients mealC5 =
      [⟨"Salt", "1 tsp"⟩, ⟨"Pepper", ""⟩] ∧
    (⟨"Salt", "1 tsp"⟩ : IngredientItem).ingredient ≠ "" :=
  ⟨C5_extract_ingredients.1,
   (C5_extract_ingredients.2 mealC5 ⟨"Salt", "1 tsp"⟩ (by decide)).1⟩

/-- C6: normalization maps an absent tags field to null and splits a
comma-joined tags string into the trimmed non-empty segments, so the
string a comma space b comma comma c becomes the list a b c; the absent
optional fields category, area, instructions and videoUrl, and an empty
thumbnail, normalize to null rather than to an empty string. -/
theorem C6_null_normalization (meal : MealDetail) :
    (meal.strTags = none → (normalizeMeal meal).tags = none) ∧
    (meal.strTags = some "a, b,,c" →
      (normalizeMeal meal).tags = some ["a", "b", "c"]) ∧
    (meal.strCategory = none → (normalizeMeal meal).category = none) ∧
    (meal.strArea = none → (normalizeMeal meal).area = none) ∧
    (meal.strInstructions = none →
      (normalizeMeal meal).instructions = none) ∧
    (meal.strMealThumb = "" → (normalizeMeal meal).thumbnail = none) ∧
    (meal.strYoutube = none → (normalizeMeal meal).youtube = none) := by
  refine ⟨?_, ?_, ?_, ?_, ?_, ?_, ?_⟩ <;> intro h
  · simp [normalizeMeal, normTags, h]
  · rw [show (normalizeMeal meal).tags = normTags meal.strTags from rfl, h]
    rfl
  · simp [normalizeMeal, orNull, h]
  · simp [normalizeMeal, orNull, h]
  · simp [normalizeMeal, orNull, h]
  · simp [normalizeMeal, h]
  · simp [normalizeMeal, orNull, h]

/-- Witness for C6 at a detail with absent optional fields and at a detail
carrying the example tags string. -/
theorem C6_null_normalization_witness :
    (normalizeMeal mealN).tags = none ∧
    (normalizeMeal mealN).category = none ∧
    (normalizeMeal mealN).thumbnail = none ∧
    (normalizeMeal mealT).tags = some ["a", "b", "c"] :=
  ⟨(C6_null_normalization mealN).1 rfl,
   (C6_null_normalization mealN).2.2.1 rfl,
   (C6_null_normalization mealN).2.2.2.2.2.1 rfl,
   (C6_null_normalization mealT).2.1 rfl⟩

/-- C7: randomSelection issues at most twenty random.php calls whatever the
provider answers, returns at most ten meals whose ids are pairwise
distinct, and when every call fails it simply returns the empty list, a
valid non-error outcome. -/
theorem C7_random_selection_bounded (env : Env) :
    randomSelectionTries env ≤ 20 ∧
    (randomSelection env).length ≤ 10 ∧
    (randomSelection env).Pairwise (fun a b => a.idMeal ≠ b.idMeal) ∧
    ((∀ t, env.random t = .error ()) → randomSelection env = []) :=
  ⟨randomLoopAux_snd_le env 20 0 [],
   randomLoopAux_fst_length env 20 0 [] (by simp),
   randomLoopAux_fst_pairwise env 20 0 [] (by simp),
   fun hr => randomLoopAux_allErr env hr 20 0 []⟩

/-- Witness for C7 at the environment whose random endpoint always fails. -/
theorem C7_random_selection_bounded_witness :
    randomSelectionTries envAllErr ≤ 20 ∧ randomSelection envAllErr = [] :=
  ⟨(C7_random_selection_bounded envAllErr).1,
   (C7_random_selection_bounded envAllErr).2.2.2 (fun _ => rfl)⟩

/-- C8 counterexample: in an environment where every endpoint, including
every random.php call, raises a transport error, execute on an ingredient
query still returns an ok result with an empty recipe list and source
TheMealDB, so the failure of the final random stage does not propagate to
the caller as a hard error. -/
theorem C8_counterexample :
    execute envAllErr ctxW1 = .ok { recipes := [], source := "TheMealDB" } :=
  rfl

/-- C8 amended: when every random.php call raises a transport error the
per-call catch inside randomSelection swallows each failure, randomSelection
returns the empty list, and execute never surfaces a hard error. -/
theorem C8_random_failure_swallowed (env : Env) (ctx : Ctx)
    (hr : ∀ t, env.random t = .error ()) :
    randomSelection env = [] ∧ execute env ctx ≠ .error () := by
  refine ⟨randomLoopAux_allErr env hr 20 0 [], ?_⟩
  unfold execute
  split
  · simp
  · simp

/-- Witness for the amended C8 at the all-failing environment. -/
theorem C8_random_failure_swallowed_witness :
    randomSelection envAllErr = [] ∧
    execute envAllErr ctxW1 ≠ .error () :=
  C8_random_failure_swallowed envAllErr ctxW1 (fun _ => rfl)

/-- C9: each provider-client operation returns the empty list, rather than
throwing, whenever the provider reports no matches (a meals field that is
null, modelled by nonArray) or a malformed payload whose meals field is not
an array, or an empty array; an operation only raises when the underlying
fetch itself raised a transport error. -/
theorem C9_client_empty_on_no_matches (env : Env) (s : String) :
    (env.filterI s = .ok .nonArray → filterByIngredient env s = .ok []) ∧
    (env.filterI s = .ok (.arr []) → filterByIngredient env s = .ok []) ∧
    (filterByIngredient env s = .error () → env.filterI s = .error ()) ∧
    (env.filterC s = .ok .nonArray → filterByCategory env s = .ok []) ∧
    (env.filterC s = .ok (.arr []) → filterByCategory env s = .ok []) ∧
    (filterByCategory env s = .error () → env.filterC s = .error ()) ∧
    (env.filterA s = .ok .nonArray → filterByArea env s = .ok []) ∧
    (env.filterA s = .ok (.arr []) → filterByArea env s = .ok []) ∧
    (filterByArea env s = .error () → env.filterA s = .error ()) ∧
    (env.search s = .ok .nonArray → searchByName env s = .ok []) ∧
    (env.search s = .ok (.arr []) → searchByName env s = .ok []) ∧
    (searchByName env s = .error () → env.search s = .error ()) := by
  refine ⟨?_, ?_, ?_, ?_, ?_, ?_, ?_, ?_, ?_, ?_, ?_, ?_⟩ <;> intro h
  · simp [filterByIngredient, h]
  · simp [filterByIngredient, h]
  · cases hv : env.filterI s with
    | error e => cases e; rfl
    | ok v => cases v <;> simp [filterByIngredient, hv] at h
  · simp [filterByCategory, h]
  · simp [filterByCategory, h]
  · cases hv : env.filterC s with
    | error e => cases e; rfl
    | ok v => cases v <;> simp [filterByCategory, hv] at h
  · simp [filterByArea, h]
  · simp [filterByArea, h]
  · cases hv : env.filterA s with
    | error e => cases e; rfl
    | ok v => cases v <;> simp [filterByArea, hv] at h
  · simp [searchByName, h]
  · simp [searchByName, h]
  · cases hv : env.search s with
    | error e => cases e; rfl
    | ok v => cases v <;> simp [searchByName, hv] at h

/-- Witness for C9 at an environment answering every call with a non-array
meals field. -/
theorem C9_client_empty_on_no_matches_witness :
    filterByIngredient envMal "tofu" = .ok [] ∧
    filterByCategory envMal "Seafood" = .ok [] ∧
    filterByArea envMal "Chinese" = .ok [] ∧
    searchByName envMal "noodle" = .ok [] :=
  ⟨(C9_client_empty_on_no_matches envMal "tofu").1 rfl,
   (C9_client_empty_on_no_matches envMal "Seafood").2.2.2.1 rfl,
   (C9_client_empty_on_no_matches envMal "Chinese").2.2.2.2.2.2.1 rfl,
   (C9_client_empty_on_no_matches envMal
     "noodle").2.2.2.2.2.2.2.2.2.1 rfl⟩

theorem tryBody_eq_filterBranch (env : Env) (ctx : Ctx) (lim : Nat)
    (fE : Except Unit (List MealSummary)) (term : String)
    (h : activeFilter env ctx = some (fE, term)) :
    tryBody env ctx lim = filterBranch env fE term lim := by
  unfold activeFilter at h
  unfold tryBody
  split at h
  · rename_i h1
    simp only [Option.some.injEq, Prod.mk.injEq] at h
    rw [if_pos h1, h.1, h.2]
  · split at h
    · rename_i h1 h2
      simp only [Option.some.injEq, Prod.mk.injEq] at h
      rw [if_neg h1, if_pos h2, h.1, h.2]
    · split at h
      · rename_i h1 h2 h3
        simp only [Option.some.injEq, Prod.mk.injEq] at h
        rw [if_neg h1, if_neg h2, if_pos h3, h.1, h.2]
      · simp at h

/-- C10: whenever the filter stage selected by the priority order returns a
non-empty summary list but the detail lookup yields no meal for any of the
selected ids, execute returns the empty recipe list with source TheMealDB,
without falling back to search-by-name or to random selection. -/
theorem C10_empty_details (env : Env) (ctx : Ctx) (l : List MealSummary)
    (term : String)
    (hact : activeFilter env ctx = some (.ok l, term))
    (hne : l ≠ [])
    (hnull : ∀ id ∈ (l.take (ctx.limit.getD 5)).map MealSummary.idMeal,
      lookupMeal env id = .ok none) :
    execute env ctx = .ok { recipes := [], source := "TheMealDB" } := by
  have hfd := fetchDetailsFor_all_none env _ hnull
  have hne2 : l.isEmpty = false := by
    cases l with
    | nil => exact absurd rfl hne
    | cons a as => rfl
  have ht : tryBody env ctx (ctx.limit.getD 5) =
      .ok { recipes := [], source := "TheMealDB" } := by
    rw [tryBody_eq_filterBranch env ctx _ _ _ hact]
    unfold filterBranch
    simp only [hne2, Bool.false_eq_true, if_false]
    rw [hfd]
    rfl
  unfold execute
  rw [ht]

/-- Witness for C10 at an environment whose filter finds a summary, whose
every lookup returns an empty meals array, and whose search and random
endpoints would both return meals. -/
theorem C10_empty_details_witness :
    execute envW10 ctxW10 = .ok { recipes := [], source := "TheMealDB" } :=
  C10_empty_details envW10 ctxW10 [s1] "beef" rfl (by decide)
    (fun _ _ => rfl)

end FoodEat
